import Mathlib

/-!
Verification of the beautifhy safe reader (`src/beautifhy/reader.py`).

The development shallowly embeds the repository's `Comment` class and
`HySafeReader` subclass.  The base Hy reader (`hy.reader`) is an external
collaborator whose code is not part of the repository; its primitives
(`peekc`, `getc`, `read_ident`, `read_chars_until`, the metaclass-built
default handler table and the base constructor) are modelled from the
specification's description of their interface, and each such definition
is marked `Modelled from the spec:` in its doc comment.  Everything else
is translated directly from `reader.py`.
-/

set_option autoImplicit false

namespace Beautifhy

/-- A line/column position, as tracked by the base reader for diagnostics. -/
structure Pos where
  line : Nat
  col : Nat
deriving DecidableEq, Repr

/-- The character-stream state of a reader: the remaining input and the
position of the most recently consumed character.  Modelled from the spec:
the base reader is "a pure pull-based traversal of an in-memory character
source" tracking "current stream position". -/
structure Reader where
  input : List Char
  pos : Pos
deriving DecidableEq, Repr

/-- Position update after consuming one character (newline starts a new line). -/
def advancePos (p : Pos) (c : Char) : Pos :=
  if c = '\n' then { line := p.line + 1, col := 0 }
  else { line := p.line, col := p.col + 1 }

/-- Modelled from the spec: the base reader's `getc`, consuming one character
and returning it as a one-character string, or the empty string at end of
stream. -/
def getc (s : Reader) : String × Reader :=
  match s.input with
  | [] => ("", s)
  | c :: rest => (String.mk [c], { input := rest, pos := advancePos s.pos c })

/-- Modelled from the spec: the base reader's `peekc`, returning the next
character without consuming it, or the empty string at end of stream. -/
def peekc (s : Reader) : String :=
  match s.input with
  | [] => ""
  | c :: _ => String.mk [c]

/-- Python's whitespace test, as used by `str.strip()` with no argument:
CPython's `Py_UNICODE_ISSPACE`, true exactly for U+0009–U+000D, U+001C–U+001F,
U+0020, U+0085, U+00A0, U+1680, U+2000–U+200A, U+2028, U+2029, U+202F,
U+205F and U+3000. -/
def pyIsSpace (c : Char) : Bool :=
  (0x09 ≤ c.toNat && c.toNat ≤ 0x0d) ||
  (0x1c ≤ c.toNat && c.toNat ≤ 0x20) ||
  c.toNat = 0x85 || c.toNat = 0xa0 || c.toNat = 0x1680 ||
  (0x2000 ≤ c.toNat && c.toNat ≤ 0x200a) ||
  c.toNat = 0x2028 || c.toNat = 0x2029 ||
  c.toNat = 0x202f || c.toNat = 0x205f || c.toNat = 0x3000

/-- Python's `str.strip()`: remove whitespace from both ends. -/
def pyStrip (s : String) : String :=
  String.mk (((s.data.dropWhile pyIsSpace).reverse.dropWhile pyIsSpace).reverse)

/-- Consume `n` characters, updating the position accordingly. -/
def advanceMany (s : Reader) : Nat → Reader
  | 0 => s
  | n + 1 =>
    match s.input with
    | [] => s
    | c :: rest => advanceMany { input := rest, pos := advancePos s.pos c } n

/-- Modelled from the spec: the base reader's identifier-ending character
set (whitespace, brackets, the comment and string introducers and quoting
characters).  Only used to instantiate theorems that are otherwise
parametric in the identifier-scanning rule. -/
def hyEndsIdent (c : Char) : Bool :=
  pyIsSpace c || c = '(' || c = ')' || c = '[' || c = ']' || c = '{' || c = '}' ||
    c = ';' || c = '"' || c = Char.ofNat 39 || c = Char.ofNat 96 || c = '~' || c = ','

/-- Modelled from the spec: the base reader's `read_ident`, which scans
"the longest identifier-shaped token" — the maximal run of characters not
in the identifier-ending set — consuming exactly those characters. -/
def read_ident (endsIdent : Char → Bool) (s : Reader) : String × Reader :=
  let tk := s.input.takeWhile (fun c => !(endsIdent c))
  (String.mk tk, advanceMany s tk.length)

/-- The base reader's error taxonomy (`hy.reader.exceptions`), at the
interface granularity the repository uses: both conditions carry the
reader position. -/
inductive RErr where
  | prematureEndOfInput (msg : String) (pos : Pos)
  | lexException (msg : String) (pos : Pos)
deriving DecidableEq, Repr

/-- `class Comment(Keyword)`: a comment up to newline.  `__init__` stores
`str(value)` in `self.name`; for the string-valued uses in the repository
this is the text itself. -/
structure Comment where
  name : String
deriving DecidableEq, Repr

/-- `Comment.__init__`: `self.name = str(value)` (identity on strings). -/
def Comment.construct (value : String) : Comment := ⟨value⟩

/-- `Comment.__str__`: `return ";%s\n" % self.name`.  Pure. -/
def Comment.dunderStr (c : Comment) : String := ";" ++ c.name ++ "\n"

/-- `Comment.__eq__`: `return False`, for any other operand whatsoever. -/
def Comment.dunderEq {α : Sort*} (_self : Comment) (_other : α) : Bool := false

/-- `Comment.__ne__`: `return True`, for any other operand whatsoever. -/
def Comment.dunderNe {α : Sort*} (_self : Comment) (_other : α) : Bool := true

/-- `Comment.__hash__`: `return hash(self.name)`, modelled as the name itself
(hash consistency with structural content). -/
def Comment.dunderHash (c : Comment) : String := c.name

/-- A Python special method as declared in source: the number of positional
parameters it declares (including `self`) together with its body.  The body
of every method modelled here ignores its arguments, so it is a bare value. -/
structure PyDunderMethod where
  paramCount : Nat
  body : Bool

/-- `Comment.__bool__` as written in the source:
`def __bool__(self, other): return False` — note the two declared
positional parameters. -/
def commentBoolMethod : PyDunderMethod := ⟨2, false⟩

/-- Outcome of a Python builtin protocol call: a value, or a `TypeError`
for a call whose argument count does not match the declared parameters
(`missing` required positional arguments). -/
inductive PyBoolResult where
  | value (b : Bool)
  | typeErrorMissingArgs (missing : Nat)
deriving DecidableEq, Repr

/-- Python's `bool(x)` protocol: invoke `type(x).__bool__` with exactly one
argument (the receiver); a method declaring a different number of positional
parameters makes the call raise `TypeError`. -/
def pyBoolOfComment (_c : Comment) : PyBoolResult :=
  if commentBoolMethod.paramCount = 1 then .value commentBoolMethod.body
  else .typeErrorMissingArgs (commentBoolMethod.paramCount - 1)

/-- The Python classes relevant to the repository:  `object`, the Hy model
base class, `hy.models.Keyword`, `hy.models.Symbol`, and the repository's
`Comment`. -/
inductive PyClass where
  | object
  | hyObject
  | keyword
  | symbol
  | comment
deriving DecidableEq, Repr

/-- Direct base class, from the class declarations: the repository declares
`class Comment(Keyword)`; `Keyword` and `Symbol` come from `hy.models`
(modelled from the spec as ordinary model classes under `object`). -/
def pyBaseClass : PyClass → Option PyClass
  | .comment => some .keyword
  | .keyword => some .hyObject
  | .symbol => some .hyObject
  | .hyObject => some .object
  | .object => none

/-- The method-resolution ancestry of each class (the class itself first). -/
def classAncestors : PyClass → List PyClass
  | .comment => [.comment, .keyword, .hyObject, .object]
  | .keyword => [.keyword, .hyObject, .object]
  | .symbol => [.symbol, .hyObject, .object]
  | .hyObject => [.hyObject, .object]
  | .object => [.object]

/-- Python's `isinstance` at the class level: the instance's class is the
target class or one of its ancestors. -/
def pyIsInstance (cls target : PyClass) : Bool :=
  decide (target ∈ classAncestors cls)

/-- The runtime class of a `Comment` instance. -/
def pyClassOf (_c : Comment) : PyClass := PyClass.comment

/-- A syntax node, at the granularity the claims need: symbols (with the
`from_parser` tag), the repository's comment nodes, and all remaining
base-grammar node shapes collapsed into an abstract tag. -/
inductive Node where
  | sym (name : String) (fromParser : Bool)
  | comment (c : Comment)
  | baseNode (tag : Nat)
deriving DecidableEq, Repr

/-- The message used by `tag_dispatch` when raising `PrematureEndOfInput`. -/
def dispatchMsg : String := "Premature end of input while attempting dispatch"

/-- `HySafeReader.tag_dispatch`, translated from the source:

```
if not self.peekc().strip():
    raise PrematureEndOfInput.from_reader(
        "Premature end of input while attempting dispatch", self)
ident = self.read_ident() or self.getc()
return Symbol(f"#{ident}", from_parser=True)
```

`PrematureEndOfInput.from_reader` carries the reader's current position
(the position of the consumed introducer, since the handler runs just after
the introducer is consumed). -/
def tag_dispatch (endsIdent : Char → Bool) (s : Reader) : Except RErr (Node × Reader) :=
  if pyStrip (peekc s) = "" then
    .error (.prematureEndOfInput dispatchMsg s.pos)
  else
    let (ident, s₁) := read_ident endsIdent s
    if ident = "" then
      let (cs, s₂) := getc s₁
      .ok (.sym ("#" ++ cs) true, s₂)
    else
      .ok (.sym ("#" ++ ident) true, s₁)

/-- Modelled from the spec: the base reader's `read_chars_until` primitive
as used for comment bodies — raw character accumulation "until (and not
including) the next newline or end of stream", with interpolation disabled
and the terminating character left in the stream. -/
def read_chars_until (closing : Char → Bool) (s : Reader) : String × Reader :=
  let tk := s.input.takeWhile (fun c => !(closing c))
  (String.mk tk, advanceMany s tk.length)

/-- `HySafeReader.line_comment`, translated from the source: accumulate
characters with `read_chars_until(comment_closing, ";", is_fstring=False)`
where `comment_closing(c)` is `c == "\n"`, and wrap the result in a
`Comment`. -/
def line_comment (s : Reader) : Node × Reader :=
  let (txt, s') := read_chars_until (fun c => c == '\n') s
  (.comment (Comment.construct txt), s')

/-- A handler slot in a reader's dispatch table: either the base reader's
own handler for an introducer character (the fallback identifier/symbol
behaviour for characters outside the table is folded into the same shape,
since both are a function of the character alone), or one of the two
`HySafeReader` overrides. -/
inductive HandlerId where
  | baseHandler (c : Char)
  | safeTagDispatch
  | safeLineComment
deriving DecidableEq, Repr

/-- The extension-handler (reader-macro) registry: names paired with an
abstract tag standing for the registered handler. -/
abbrev Registry := List (String × Nat)

/-- The per-instance state a constructed reader carries besides the stream:
its effective dispatch table and its extension-handler registry
(`self.reader_table` and the reader-macro mapping, in the source). -/
structure ReaderInstance where
  readerTable : Char → HandlerId
  extensionHandlers : Registry

/-- Modelled from the spec: `HyReader.DEFAULT_TABLE` — every introducer
character resolves to the base reader's own handler for it. -/
def hyReaderDefaultTable : Char → HandlerId := fun c => .baseHandler c

/-- Modelled from the spec: `HySafeReader.DEFAULT_TABLE` as built by the
base reader's metaclass — "start from the base reader's default table
(so every standard introducer character keeps its standard base-grammar
behavior), then apply the Safe Reader's own two overrides on top": the
`@reader_for` decorations on `tag_dispatch` and `line_comment`. -/
def hySafeDefaultTable : Char → HandlerId := fun c =>
  if c = '#' then .safeTagDispatch
  else if c = ';' then .safeLineComment
  else .baseHandler c

/-- `dict.copy()` followed by `dict.update(upd)` where the updating table
carries an entry for every introducer the base table knows (the subclass
default table contains every base key), so the updating table's entry wins
on every character. -/
def dictUpdateAll (_base upd : Char → HandlerId) : Char → HandlerId := fun c => upd c

/-- Modelled from the spec: the base constructor `HyReader.__init__`.  It
copies the instance's class-level default table into `self.reader_table`
and populates the reader-macro registry from the process-wide registry
exactly when `use_current_readers` is set. -/
def hyReaderInit (defaultTable : Char → HandlerId) (useCurrentReaders : Bool)
    (processRegistry : Registry) : ReaderInstance :=
  { readerTable := defaultTable
    extensionHandlers := if useCurrentReaders then processRegistry else [] }

/-- `HySafeReader.__init__`, translated from the source:

```
kwargs.pop('use_current_readers', None)
super().__init__(use_current_readers=False, **kwargs)
parent_table = HyReader.DEFAULT_TABLE.copy()
parent_table.update(self.reader_table)  # Keep our overrides
self.reader_table = parent_table
self.reader_macros.clear()
```

The caller-supplied `use_current_readers` value (if any) is discarded by the
`pop`; the superclass constructor runs with the option forced off and with
the instance's class-level default table (`HySafeReader.DEFAULT_TABLE`). -/
def hySafeReaderInit (_useCurrentReadersArg : Option Bool)
    (processRegistry : Registry) : ReaderInstance :=
  let self := hyReaderInit hySafeDefaultTable false processRegistry
  let parentTable := dictUpdateAll hyReaderDefaultTable self.readerTable
  { readerTable := parentTable, extensionHandlers := [] }

/-- The base reader's grammar engine, abstracted: for each introducer
character, a function from the stream state just past the introducer to
either an error or an optional produced node (whitespace-like handlers
produce none) and the advanced state. -/
abbrev BaseEnv := Char → Reader → Except RErr (Option Node × Reader)

/-- Run one handler slot: base slots delegate to the base engine; the two
override slots run the repository's `tag_dispatch` and `line_comment`. -/
def runHandler (endsIdent : Char → Bool) (B : BaseEnv) :
    HandlerId → Reader → Except RErr (Option Node × Reader)
  | .baseHandler c => fun s => B c s
  | .safeTagDispatch => fun s =>
      match tag_dispatch endsIdent s with
      | .error e => .error e
      | .ok (n, s') => .ok (some n, s')
  | .safeLineComment => fun s =>
      let (n, s') := line_comment s
      .ok (some n, s')

/-- The read loop of the base reader ("read one node at a time until end of
stream"): consume the next introducer character, dispatch through the
table, collect the produced nodes.  Returns the node sequence, the trace of
introducer characters actually dispatched on (a character inside a
string/literal span is consumed by a handler and never appears here), and
the error that stopped the read, if any.  Fuel-indexed since an abstract
handler need not consume input. -/
def runLoop (tbl : Char → HandlerId) (endsIdent : Char → Bool) (B : BaseEnv) :
    Nat → Reader → List Node × List Char × Option RErr
  | 0, _ => ([], [], none)
  | fuel + 1, s =>
    match s.input with
    | [] => ([], [], none)
    | c :: rest =>
      match runHandler endsIdent B (tbl c) { input := rest, pos := advancePos s.pos c } with
      | .error e => ([], [c], some e)
      | .ok (n?, s₂) =>
        let r := runLoop tbl endsIdent B fuel s₂
        (n?.toList ++ r.1, c :: r.2.1, r.2.2)

/-- Recognizer for a `PrematureEndOfInput` outcome of `tag_dispatch`. -/
def isPrematureEnd : Except RErr (Node × Reader) → Bool
  | .error (.prematureEndOfInput _ _) => true
  | _ => false

/-- Recognizer for a successful outcome of `tag_dispatch`. -/
def isOkResult : Except RErr (Node × Reader) → Bool
  | .ok _ => true
  | _ => false

/-- `tag_dispatch` as invoked on a constructed instance: the instance's
extension-handler registry travels alongside the stream state.  The handler
body (see `tag_dispatch`) never reads or writes it. -/
def instTagDispatch (endsIdent : Char → Bool) (reg : Registry) (s : Reader) :
    (Except RErr (Node × Reader)) × Registry :=
  (tag_dispatch endsIdent s, reg)

/-- A minimal concrete base-grammar engine used to instantiate the
parametric theorems: every handler consumes nothing further and emits an
abstract node tagged with the introducer's code point. -/
def toyBase : BaseEnv := fun c s => .ok (some (.baseNode c.toNat), s)

/-- A concrete base-grammar engine for the comment example: newline is
plain whitespace (no node, nothing further consumed) and any other
introducer consumes the rest of the stream, producing one abstract node. -/
def exampleBase : BaseEnv := fun c s =>
  if c = '\n' then .ok (none, s)
  else .ok (some (.baseNode 7), { input := [], pos := s.pos })

/-- The reader state at the start of the spec's comment example. -/
def c7rd0 : Reader := { input := "; hello world\n(+ 1 2)".data, pos := ⟨1, 0⟩ }

/-- The reader state just after the read loop consumes the newline of the
comment example. -/
def c7rd1 : Reader := { input := "(+ 1 2)".data, pos := ⟨2, 0⟩ }

/-- The reader state just after the read loop consumes the opening bracket
of the comment example. -/
def c7rd2 : Reader := { input := "+ 1 2)".data, pos := ⟨2, 1⟩ }

lemma pyStrip_single_eq_empty_iff (c : Char) :
    pyStrip (String.mk [c]) = "" ↔ pyIsSpace c = true := by
  cases h : pyIsSpace c <;>
    simp [pyStrip, List.dropWhile, h, String.ext_iff]

lemma advanceMany_input (n : Nat) : ∀ s : Reader, (advanceMany s n).input = s.input.drop n := by
  induction n with
  | zero => intro s; rfl
  | succ n ih =>
    intro s
    cases h : s.input with
    | nil => simp [advanceMany, h]
    | cons c rest => simp [advanceMany, h, ih]

lemma dropWhile_eq_drop_len (p : Char → Bool) :
    ∀ l : List Char, l.dropWhile p = l.drop (l.takeWhile p).length := by
  intro l
  induction l with
  | nil => rfl
  | cons c rest ih => cases h : p c <;> simp [List.dropWhile, List.takeWhile, h, ih]

/-- C5: for every text `t` and every value `v` — including another `Comment`
with identical text and the very same `Comment` — the comparison
`Comment(t) == v` returns false and `Comment(t) != v` returns true; in
particular `Comment(t) == Comment(t)` evaluates to false. -/
theorem comment_equality_always_false {α : Sort*} (t : String) (v : α) :
    Comment.dunderEq (Comment.construct t) v = false
    ∧ Comment.dunderNe (Comment.construct t) v = true
    ∧ Comment.dunderEq (Comment.construct t) (Comment.construct t) = false :=
  ⟨rfl, rfl, rfl⟩

/-- C6: rendering `Comment(t)` to source form returns exactly the introducer
character `;` followed by `t` followed by a single trailing newline; in
particular `Comment(" hello world")` renders as `"; hello world\n"`.
Rendering is a pure function of the node. -/
theorem comment_render_spec (t : String) :
    Comment.dunderStr (Comment.construct t) = ";" ++ t ++ "\n"
    ∧ Comment.dunderStr (Comment.construct " hello world") = "; hello world\n" := by
  refine ⟨rfl, ?_⟩
  simp [Comment.dunderStr, Comment.construct]

/-- C8 (code evaluated at the failing input): the source declares
`def __bool__(self, other): return False` with two positional parameters,
so Python's boolean-conversion protocol — which passes exactly the receiver
— raises `TypeError` (one missing required positional argument) instead of
returning `False`, for every text `t`. -/
theorem comment_bool_raises_type_error (t : String) :
    pyBoolOfComment (Comment.construct t) = .typeErrorMissingArgs 1
    ∧ commentBoolMethod.paramCount = 2 :=
  ⟨rfl, rfl⟩

/-- C10: `Comment` is declared as a subclass of the base language's
`Keyword` model type, so an `isinstance`-style check for `Keyword` matches
every comment node. -/
theorem comment_is_keyword_instance (t : String) :
    pyBaseClass (pyClassOf (Comment.construct t)) = some PyClass.keyword
    ∧ pyIsInstance (pyClassOf (Comment.construct t)) PyClass.keyword = true :=
  ⟨rfl, rfl⟩

/-- C2: for every combination of constructor options and every
process-registry contents, a freshly constructed `HySafeReader` has an
empty extension-handler registry, so any handler registered before
construction is absent from the constructed instance. -/
theorem safe_reader_registry_always_empty (ucr : Option Bool) (reg : Registry)
    (p : String × Nat) (_hp : p ∈ reg) :
    (hySafeReaderInit ucr reg).extensionHandlers = []
    ∧ p ∉ (hySafeReaderInit ucr reg).extensionHandlers :=
  ⟨rfl, List.not_mem_nil p⟩

/-- Witness for C2 at a concrete registration. -/
theorem safe_reader_registry_always_empty_witness :
    ("m", 3) ∈ [("m", 3)]
    ∧ ((hySafeReaderInit (some true) [("m", 3)]).extensionHandlers = []
       ∧ ("m", 3) ∉ (hySafeReaderInit (some true) [("m", 3)]).extensionHandlers) :=
  ⟨by decide, safe_reader_registry_always_empty (some true) [("m", 3)] ("m", 3) (by decide)⟩

/-- C9: construction forces the "use currently-registered extension
handlers" option off regardless of the caller's value, so two safe readers
constructed with any options under any two process-registry states are the
same instance state, and reading the same text with them yields the same
node sequence whatever extension handlers are registered at read time. -/
theorem safe_reader_forced_deterministic (ucr₁ ucr₂ : Option Bool) (reg₁ reg₂ : Registry) :
    hySafeReaderInit ucr₁ reg₁ = hySafeReaderInit ucr₂ reg₂
    ∧ ∀ (endsIdent : Char → Bool) (B : BaseEnv) (fuel : Nat) (text : List Char),
        runLoop (hySafeReaderInit ucr₁ reg₁).readerTable endsIdent B fuel ⟨text, ⟨1, 0⟩⟩
          = runLoop (hySafeReaderInit ucr₂ reg₂).readerTable endsIdent B fuel ⟨text, ⟨1, 0⟩⟩ :=
  ⟨rfl, fun _ _ _ _ => rfl⟩

/-- C1 (counterexample): a stream positioned just after `#` with one more
character available (a space) does not produce a symbol node — the guard
`if not self.peekc().strip()` treats an available whitespace character like
end of input and raises instead. -/
theorem tag_dispatch_whitespace_not_symbol :
    (⟨[' '], ⟨1, 1⟩⟩ : Reader).input ≠ []
    ∧ isOkResult (tag_dispatch hyEndsIdent ⟨[' '], ⟨1, 1⟩⟩) = false := by
  exact ⟨by decide, by decide⟩

/-- C1 (amended): for every stream positioned just after the introducer
whose next character is available and is not whitespace, `tag_dispatch`
returns a symbol node named `#` followed by the longest identifier-shaped
run (or, when that run is empty, exactly the one next character), tagged
`from_parser`; the stream advances exactly past the consumed characters and
the instance's extension-handler registry is neither consulted (the outcome
is the same under any registry) nor modified. -/
theorem tag_dispatch_reads_longest_ident (endsIdent : Char → Bool) (s : Reader)
    (c : Char) (rest : List Char) (hin : s.input = c :: rest)
    (hw : pyIsSpace c = false) :
    tag_dispatch endsIdent s
      = (if (s.input.takeWhile fun d => !(endsIdent d)) = []
         then .ok (.sym (String.mk ['#', c]) true,
             { input := rest, pos := advancePos s.pos c })
         else .ok (.sym ("#" ++ String.mk (s.input.takeWhile fun d => !(endsIdent d))) true,
             advanceMany s (s.input.takeWhile fun d => !(endsIdent d)).length))
    ∧ (advanceMany s (s.input.takeWhile fun d => !(endsIdent d)).length).input
        = s.input.drop (s.input.takeWhile fun d => !(endsIdent d)).length
    ∧ ∀ reg₁ reg₂ : Registry,
        (instTagDispatch endsIdent reg₁ s).1 = (instTagDispatch endsIdent reg₂ s).1
        ∧ (instTagDispatch endsIdent reg₁ s).2 = reg₁ := by
  refine ⟨?_, advanceMany_input _ s, fun reg₁ reg₂ => ⟨rfl, rfl⟩⟩
  have hpeek : peekc s = String.mk [c] := by simp [peekc, hin]
  have hguard : ¬ pyStrip (peekc s) = "" := by
    rw [hpeek]
    intro hcontra
    rw [(pyStrip_single_eq_empty_iff c).mp hcontra] at hw
    exact Bool.noConfusion hw
  have hmk : ∀ tk : List Char, (String.mk tk = "") ↔ tk = [] := by
    intro tk; simp [String.ext_iff]
  by_cases htk : (s.input.takeWhile fun d => !(endsIdent d)) = []
  · simp only [tag_dispatch, read_ident, if_neg hguard, htk]
    simp [getc, advanceMany, hin, String.ext_iff]
  · simp only [tag_dispatch, read_ident, if_neg hguard, if_neg htk]
    rw [if_neg (fun hcontra => htk ((hmk _).mp hcontra))]

/-- Witness for C1 (amended) at the spec's `#foo` example. -/
theorem tag_dispatch_reads_longest_ident_witness :
    ((⟨"foo".data, ⟨1, 1⟩⟩ : Reader).input = 'f' :: "oo".data ∧ pyIsSpace 'f' = false)
    ∧ tag_dispatch hyEndsIdent ⟨"foo".data, ⟨1, 1⟩⟩
        = .ok (.sym "#foo" true, ⟨[], ⟨1, 4⟩⟩) := by
  refine ⟨⟨rfl, rfl⟩, ?_⟩
  have h := (tag_dispatch_reads_longest_ident hyEndsIdent ⟨"foo".data, ⟨1, 1⟩⟩
    'f' "oo".data rfl rfl).1
  rw [h]
  rfl

/-- C3 (counterexample): a stream positioned just after `#` with one more
character available (a tab) nevertheless fails with `PrematureEndOfInput`,
so the condition is not raised exactly when the stream is exhausted. -/
theorem tag_dispatch_tab_premature :
    (⟨['\t'], ⟨1, 1⟩⟩ : Reader).input ≠ []
    ∧ isPrematureEnd (tag_dispatch hyEndsIdent ⟨['\t'], ⟨1, 1⟩⟩) = true := by
  exact ⟨by decide, by decide⟩

/-- C3 (amended): `tag_dispatch` fails with `PrematureEndOfInput` exactly
when the stream is exhausted immediately after the introducer or the next
character is whitespace; the condition carries the reader position, and for
the input `#` followed by end of stream the safe read fails with the
position (line 1, column 1) of the dispatch introducer itself. -/
theorem tag_dispatch_premature_condition (endsIdent : Char → Bool) (s : Reader) :
    (isPrematureEnd (tag_dispatch endsIdent s) = true
       ↔ s.input = [] ∨ ∃ c rest, s.input = c :: rest ∧ pyIsSpace c = true)
    ∧ tag_dispatch endsIdent { input := [], pos := ⟨1, 1⟩ }
        = .error (.prematureEndOfInput dispatchMsg ⟨1, 1⟩)
    ∧ ∀ (B : BaseEnv) (fuel : Nat),
        runLoop hySafeDefaultTable endsIdent B (fuel + 1) { input := ['#'], pos := ⟨1, 0⟩ }
          = ([], ['#'], some (.prematureEndOfInput dispatchMsg ⟨1, 1⟩)) := by
  refine ⟨?_, rfl, fun B fuel => rfl⟩
  cases hin : s.input with
  | nil =>
    constructor
    · intro _; exact Or.inl rfl
    · intro _
      have : tag_dispatch endsIdent s = .error (.prematureEndOfInput dispatchMsg s.pos) := by
        simp [tag_dispatch, peekc, hin, pyStrip]
      rw [this]; rfl
  | cons c rest =>
    have hpeek : peekc s = String.mk [c] := by simp [peekc, hin]
    cases hc : pyIsSpace c with
    | true =>
      constructor
      · intro _; exact Or.inr ⟨c, rest, rfl, hc⟩
      · intro _
        have hguard : pyStrip (peekc s) = "" := by
          rw [hpeek]; exact (pyStrip_single_eq_empty_iff c).mpr hc
        have : tag_dispatch endsIdent s = .error (.prematureEndOfInput dispatchMsg s.pos) := by
          simp [tag_dispatch, hguard]
        rw [this]; rfl
    | false =>
      have h := (tag_dispatch_reads_longest_ident endsIdent s c rest hin hc).1
      constructor
      · intro hpe
        rw [h] at hpe
        by_cases htk : (s.input.takeWhile fun d => !(endsIdent d)) = []
        · rw [if_pos htk] at hpe; simp [isPrematureEnd] at hpe
        · rw [if_neg htk] at hpe; simp [isPrematureEnd] at hpe
      · intro hdisj
        rcases hdisj with hnil | ⟨c', rest', hin', hc'⟩
        · exact absurd hnil (List.cons_ne_nil c rest)
        · injection hin' with h1 _
          rw [← h1] at hc'
          rw [hc'] at hc
          exact Bool.noConfusion hc

lemma hySafeDefaultTable_other {c : Char} (h1 : c ≠ '#') (h2 : c ≠ ';') :
    hySafeDefaultTable c = .baseHandler c := by
  simp [hySafeDefaultTable, h1, h2]

lemma runLoop_nil (tbl : Char → HandlerId) (endsIdent : Char → Bool) (B : BaseEnv)
    (fuel : Nat) (s : Reader) (h : s.input = []) :
    runLoop tbl endsIdent B fuel s = ([], [], none) := by
  cases fuel <;> simp [runLoop, h]

lemma runLoop_cons_err (tbl : Char → HandlerId) (endsIdent : Char → Bool) (B : BaseEnv)
    (fuel : Nat) (s : Reader) (c : Char) (rest : List Char) (err : RErr)
    (h : s.input = c :: rest)
    (hB : runHandler endsIdent B (tbl c) { input := rest, pos := advancePos s.pos c }
      = .error err) :
    runLoop tbl endsIdent B (fuel + 1) s = ([], [c], some err) := by
  simp [runLoop, h, hB]

lemma runLoop_cons_ok (tbl : Char → HandlerId) (endsIdent : Char → Bool) (B : BaseEnv)
    (fuel : Nat) (s : Reader) (c : Char) (rest : List Char) (n? : Option Node) (s₂ : Reader)
    (h : s.input = c :: rest)
    (hB : runHandler endsIdent B (tbl c) { input := rest, pos := advancePos s.pos c }
      = .ok (n?, s₂)) :
    runLoop tbl endsIdent B (fuel + 1) s
      = (n?.toList ++ (runLoop tbl endsIdent B fuel s₂).1,
         c :: (runLoop tbl endsIdent B fuel s₂).2.1,
         (runLoop tbl endsIdent B fuel s₂).2.2) := by
  simp [runLoop, h, hB]

lemma runLoop_agree (endsIdent : Char → Bool) (B : BaseEnv) :
    ∀ (fuel : Nat) (s : Reader),
      '#' ∉ (runLoop hyReaderDefaultTable endsIdent B fuel s).2.1 →
      ';' ∉ (runLoop hyReaderDefaultTable endsIdent B fuel s).2.1 →
      runLoop hySafeDefaultTable endsIdent B fuel s
        = runLoop hyReaderDefaultTable endsIdent B fuel s := by
  intro fuel
  induction fuel with
  | zero => intro s _ _; rfl
  | succ fuel ih =>
    intro s hH hS
    cases hin : s.input with
    | nil =>
      rw [runLoop_nil _ _ _ _ _ hin, runLoop_nil _ _ _ _ _ hin]
    | cons c rest =>
      cases hB : runHandler endsIdent B (hyReaderDefaultTable c)
          { input := rest, pos := advancePos s.pos c } with
      | error err =>
        rw [runLoop_cons_err _ _ _ fuel s c rest err hin hB] at hH hS
        have hc1 : c ≠ '#' := by
          intro hc; subst hc; exact hH (List.mem_singleton_self _)
        have hc2 : c ≠ ';' := by
          intro hc; subst hc; exact hS (List.mem_singleton_self _)
        have hB' : runHandler endsIdent B (hySafeDefaultTable c)
            { input := rest, pos := advancePos s.pos c } = .error err := by
          rw [hySafeDefaultTable_other hc1 hc2]; exact hB
        rw [runLoop_cons_err _ _ _ fuel s c rest err hin hB',
          runLoop_cons_err _ _ _ fuel s c rest err hin hB]
      | ok p =>
        rcases p with ⟨n?, s₂⟩
        rw [runLoop_cons_ok _ _ _ fuel s c rest n? s₂ hin hB] at hH hS
        have hc1 : c ≠ '#' := by
          intro hc; subst hc; exact hH (List.mem_cons_self _ _)
        have hc2 : c ≠ ';' := by
          intro hc; subst hc; exact hS (List.mem_cons_self _ _)
        have hH' : '#' ∉ (runLoop hyReaderDefaultTable endsIdent B fuel s₂).2.1 :=
          fun hm => hH (List.mem_cons_of_mem _ hm)
        have hS' : ';' ∉ (runLoop hyReaderDefaultTable endsIdent B fuel s₂).2.1 :=
          fun hm => hS (List.mem_cons_of_mem _ hm)
        have hB' : runHandler endsIdent B (hySafeDefaultTable c)
            { input := rest, pos := advancePos s.pos c } = .ok (n?, s₂) := by
          rw [hySafeDefaultTable_other hc1 hc2]; exact hB
        rw [runLoop_cons_ok _ _ _ fuel s c rest n? s₂ hin hB',
          runLoop_cons_ok _ _ _ fuel s c rest n? s₂ hin hB, ih s₂ hH' hS']

/-- C4: the constructed safe reader's table maps every introducer other
than the two intercepted ones to the base reader's original handler, with
the overrides winning exactly for `#` and `;`; consequently, on any input
whose base read never dispatches on `#` or `;` (every such character, if
present, sits inside a string/literal span consumed by a handler), the safe
reader's output sequence is node-for-node identical to the base reader's,
error included. -/
theorem safe_reader_equiv_base (ucr : Option Bool) (reg : Registry)
    (ucrB : Bool) (regB : Registry)
    (endsIdent : Char → Bool) (B : BaseEnv) (fuel : Nat) (s : Reader)
    (hH : '#' ∉ (runLoop (hyReaderInit hyReaderDefaultTable ucrB regB).readerTable
      endsIdent B fuel s).2.1)
    (hS : ';' ∉ (runLoop (hyReaderInit hyReaderDefaultTable ucrB regB).readerTable
      endsIdent B fuel s).2.1) :
    runLoop (hySafeReaderInit ucr reg).readerTable endsIdent B fuel s
      = runLoop (hyReaderInit hyReaderDefaultTable ucrB regB).readerTable endsIdent B fuel s
    ∧ (∀ c, c ≠ '#' → c ≠ ';' →
        (hySafeReaderInit ucr reg).readerTable c
          = (hyReaderInit hyReaderDefaultTable ucrB regB).readerTable c)
    ∧ (hySafeReaderInit ucr reg).readerTable '#' = .safeTagDispatch
    ∧ (hySafeReaderInit ucr reg).readerTable ';' = .safeLineComment := by
  refine ⟨runLoop_agree endsIdent B fuel s hH hS, ?_, rfl, rfl⟩
  intro c h1 h2
  exact hySafeDefaultTable_other h1 h2

/-- Witness for C4 on the input `ab` under a concrete base engine. -/
theorem safe_reader_equiv_base_witness :
    ('#' ∉ (runLoop (hyReaderInit hyReaderDefaultTable false []).readerTable
        hyEndsIdent toyBase 3 ⟨"ab".data, ⟨1, 0⟩⟩).2.1
      ∧ ';' ∉ (runLoop (hyReaderInit hyReaderDefaultTable false []).readerTable
        hyEndsIdent toyBase 3 ⟨"ab".data, ⟨1, 0⟩⟩).2.1)
    ∧ runLoop (hySafeReaderInit none []).readerTable hyEndsIdent toyBase 3 ⟨"ab".data, ⟨1, 0⟩⟩
        = runLoop (hyReaderInit hyReaderDefaultTable false []).readerTable
            hyEndsIdent toyBase 3 ⟨"ab".data, ⟨1, 0⟩⟩ :=
  ⟨⟨by decide, by decide⟩,
    (safe_reader_equiv_base none [] false [] hyEndsIdent toyBase 3 ⟨"ab".data, ⟨1, 0⟩⟩
      (by decide) (by decide)).1⟩

/-- C7: `line_comment` reads characters until, and not including, the next
newline or end of stream and returns a Comment node wrapping exactly the
accumulated text, leaving the terminating newline in the stream; and on
input `"; hello world\n(+ 1 2)"`, for any base-grammar engine that treats
the newline as whitespace and parses `(+ 1 2)` into a node `n` (the
hypotheses supply only this external collaborator behaviour), the safe
reader's output sequence is the Comment node for `" hello world"` followed
by `n`. -/
theorem line_comment_spec (endsIdent : Char → Bool) (B : BaseEnv) (n : Node) (s₃ : Reader)
    (H1 : B '\n' c7rd1 = .ok (none, c7rd1))
    (H2 : B '(' c7rd2 = .ok (some n, s₃))
    (H3 : s₃.input = []) :
    (∀ s : Reader,
        (line_comment s).1
          = Node.comment (Comment.construct
              (String.mk (s.input.takeWhile fun c => !(c == '\n'))))
        ∧ (line_comment s).2.input = s.input.dropWhile (fun c => !(c == '\n')))
    ∧ runLoop (hySafeReaderInit none []).readerTable endsIdent B 4 c7rd0
        = ([Node.comment (Comment.construct " hello world"), n], [';', '\n', '('], none) := by
  constructor
  · intro s
    refine ⟨rfl, ?_⟩
    show (advanceMany s (s.input.takeWhile fun c => !(c == '\n')).length).input = _
    rw [advanceMany_input, ← dropWhile_eq_drop_len]
  · have hin0 : c7rd0.input = ';' :: " hello world\n(+ 1 2)".data := rfl
    have e1 : runHandler endsIdent B ((hySafeReaderInit none []).readerTable ';')
        { input := " hello world\n(+ 1 2)".data, pos := advancePos c7rd0.pos ';' }
        = .ok (some (Node.comment (Comment.construct " hello world")),
            { input := "\n(+ 1 2)".data, pos := ⟨1, 13⟩ }) := rfl
    have t1 : runLoop (hySafeReaderInit none []).readerTable endsIdent B 4 c7rd0
        = ((some (Node.comment (Comment.construct " hello world"))).toList
             ++ (runLoop (hySafeReaderInit none []).readerTable endsIdent B 3
                  { input := "\n(+ 1 2)".data, pos := ⟨1, 13⟩ }).1,
           ';' :: (runLoop (hySafeReaderInit none []).readerTable endsIdent B 3
                  { input := "\n(+ 1 2)".data, pos := ⟨1, 13⟩ }).2.1,
           (runLoop (hySafeReaderInit none []).readerTable endsIdent B 3
                  { input := "\n(+ 1 2)".data, pos := ⟨1, 13⟩ }).2.2) :=
      runLoop_cons_ok _ endsIdent B 3 c7rd0 ';' _ _ _ hin0 e1
    have hinA : ({ input := "\n(+ 1 2)".data, pos := ⟨1, 13⟩ } : Reader).input
        = '\n' :: "(+ 1 2)".data := rfl
    have e2 : runHandler endsIdent B ((hySafeReaderInit none []).readerTable '\n')
        { input := "(+ 1 2)".data,
          pos := advancePos ({ input := "\n(+ 1 2)".data, pos := ⟨1, 13⟩ } : Reader).pos '\n' }
        = .ok (none, c7rd1) := H1
    have t2 : runLoop (hySafeReaderInit none []).readerTable endsIdent B 3
        { input := "\n(+ 1 2)".data, pos := ⟨1, 13⟩ }
        = ((none : Option Node).toList
             ++ (runLoop (hySafeReaderInit none []).readerTable endsIdent B 2 c7rd1).1,
           '\n' :: (runLoop (hySafeReaderInit none []).readerTable endsIdent B 2 c7rd1).2.1,
           (runLoop (hySafeReaderInit none []).readerTable endsIdent B 2 c7rd1).2.2) :=
      runLoop_cons_ok _ endsIdent B 2 _ '\n' _ _ _ hinA e2
    have hinB : c7rd1.input = '(' :: "+ 1 2)".data := rfl
    have e3 : runHandler endsIdent B ((hySafeReaderInit none []).readerTable '(')
        { input := "+ 1 2)".data, pos := advancePos c7rd1.pos '(' }
        = .ok (some n, s₃) := H2
    have t3 : runLoop (hySafeReaderInit none []).readerTable endsIdent B 2 c7rd1
        = ((some n).toList
             ++ (runLoop (hySafeReaderInit none []).readerTable endsIdent B 1 s₃).1,
           '(' :: (runLoop (hySafeReaderInit none []).readerTable endsIdent B 1 s₃).2.1,
           (runLoop (hySafeReaderInit none []).readerTable endsIdent B 1 s₃).2.2) :=
      runLoop_cons_ok _ endsIdent B 1 c7rd1 '(' _ _ _ hinB e3
    have t4 : runLoop (hySafeReaderInit none []).readerTable endsIdent B 1 s₃
        = ([], [], none) := runLoop_nil _ endsIdent B 1 s₃ H3
    rw [t1, t2, t3, t4]
    rfl

/-- Witness for C7 under a concrete base engine. -/
theorem line_comment_spec_witness :
    (exampleBase '\n' c7rd1 = .ok (none, c7rd1)
      ∧ exampleBase '(' c7rd2 = .ok (some (Node.baseNode 7), ⟨[], ⟨2, 1⟩⟩)
      ∧ (⟨[], ⟨2, 1⟩⟩ : Reader).input = [])
    ∧ runLoop (hySafeReaderInit none []).readerTable hyEndsIdent exampleBase 4 c7rd0
        = ([Node.comment (Comment.construct " hello world"), Node.baseNode 7],
           [';', '\n', '('], none) :=
  ⟨⟨rfl, rfl, rfl⟩,
    (line_comment_spec hyEndsIdent exampleBase (Node.baseNode 7) ⟨[], ⟨2, 1⟩⟩ rfl rfl rfl).2⟩

end Beautifhy
